import Mathlib

/-!
Verification of the boolean-operations engine of paper.js
(src/path/PathItem.Boolean.js and src/path/CurveLocation.js).

The development shallowly embeds the functions the claims are about.
JavaScript numbers are modelled as rationals (`ℚ`), JS truthiness of a
number `w` as `w ≠ 0`, and `null`/`undefined` as `Option.none`.  External
collaborators that live outside the embedded files (`Curve.getMonoCurves`,
`Curve.solveCubic`, `Path#getArea`, `Path#contains`, `Numerical.isZero`,
...) are passed in as explicit parameters, exactly at the call sites where
the source consults them.
-/

/-- Tunable constant `Numerical.CURVETIME_EPSILON`.  Modelled from the spec:
the constant lives in `src/util/Numerical.js`, which is not part of the
sources; the spec (§6) gives the value 1e-8. -/
def curvetimeEpsilon : ℚ := 1 / 10 ^ 8

/-- Tunable constant `Numerical.GEOMETRIC_EPSILON`.  Modelled from the spec:
the constant lives in `src/util/Numerical.js`, which is not part of the
sources; the spec (§6) gives the value 1e-7. -/
def geometricEpsilon : ℚ := 1 / 10 ^ 7

/-- Tunable constant `Numerical.WINDING_EPSILON`.  Modelled from the spec:
the constant lives in `src/util/Numerical.js`, which is not part of the
sources; the spec (§6) gives the value 1e-9. -/
def windingEpsilon : ℚ := 1 / 10 ^ 9

/-! ### CurveLocation#initialize (src/path/CurveLocation.js, lines 44-72)

`initialize` merges an intersection that lies very close to the end of a
curve to the beginning of the following curve.  Only the identity of the
curve and of its optional successor matter for that step. -/

/-- The data of a curve seen by the merge step of `CurveLocation#initialize`:
its identity and the identity of `curve.getNext()`, when that successor
exists. -/
structure MergeCurve where
  id : Nat
  next : Option Nat
deriving DecidableEq

/-- Embedding of the merge step at the top of `CurveLocation#initialize`:

    if (parameter >= 1 - CURVETIME_EPSILON) {
        var next = curve.getNext();
        if (next) { parameter = 0; curve = next; }
    }

returning the `(curve, parameter)` pair that the location stores. -/
def curveLocationInit (curve : MergeCurve) (parameter : ℚ) : Nat × ℚ :=
  if 1 - curvetimeEpsilon ≤ parameter then
    match curve.next with
    | some n => (n, 0)
    | none => (curve.id, parameter)
  else
    (curve.id, parameter)

/-! ### divideLocations (src/path/PathItem.Boolean.js, lines 1331-1366)

The walk runs back-to-front over the sorted locations.  For each location
it decides whether the location maps to `curve._segment1`, to
`curve._segment2`, or causes a call to `curve.divideAtTime(time, true)`,
after an optional rescale of the curve time. -/

/-- One entry of the `locations` array processed by `divideLocations`: the
identity of `loc._curve`, the result of `curve.hasHandles()` for it, and
`loc._time`. -/
structure DivLoc where
  curveId : Nat
  hasHandles : Bool
  time : ℚ
deriving DecidableEq

/-- Where `divideLocations` sends one location: to the curve's first
segment, to its second segment, or to a division of the curve at the
(possibly rescaled) time. -/
inductive DivDecision
  | segment1
  | segment2
  | divideAt (time : ℚ)
deriving DecidableEq

/-- The `prevCurve` / `prevTime` / `noHandles` variables of
`divideLocations`.  `prevTime` is meaningful only when `prevCurve` is set;
the source reads it only under `curve === prevCurve`. -/
structure DivState where
  prevCurve : Option Nat
  prevTime : ℚ
  noHandles : Bool

/-- The initial state of the walk: `prevCurve` and `prevTime` are still
undefined, `noHandles = false`. -/
def DivState.start : DivState := ⟨none, 0, false⟩

/-- The decision of `divideLocations` as a function of the effective time:

    if (time < tMin) { segment = curve._segment1; }
    else if (time > tMax) { segment = curve._segment2; }
    else { segment = curve.divideAtTime(time, true)._segment1; } -/
def divDecide (time : ℚ) : DivDecision :=
  if time < curvetimeEpsilon then DivDecision.segment1
  else if 1 - curvetimeEpsilon < time then DivDecision.segment2
  else DivDecision.divideAt time

/-- The effective time `divideLocations` divides at:

    if (curve !== prevCurve) { noHandles = !curve.hasHandles(); }
    else if (prevTime >= tMin && prevTime <= tMax) { time /= prevTime; } -/
def divEffTime (st : DivState) (loc : DivLoc) : ℚ :=
  if st.prevCurve = some loc.curveId ∧
      curvetimeEpsilon ≤ st.prevTime ∧ st.prevTime ≤ 1 - curvetimeEpsilon then
    loc.time / st.prevTime
  else loc.time

/-- The `noHandles` update of the same branch: refreshed from
`curve.hasHandles()` exactly when a new curve is entered. -/
def divNoHandles (st : DivState) (loc : DivLoc) : Bool :=
  if st.prevCurve = some loc.curveId then st.noHandles else !loc.hasHandles

/-- Embedding of the loop body of `divideLocations`, processing the
locations in the source's order (the caller passes the list already
reversed).  A location rejected by the `include` predicate is skipped
without touching `prevCurve` / `prevTime` (`continue` in the source). -/
def divWalk (inc : Option (DivLoc → Bool)) : List DivLoc → DivState → List (DivLoc × DivDecision)
  | [], _ => []
  | loc :: rest, st =>
    if (inc.map fun f => f loc) = some false then
      divWalk inc rest st
    else
      (loc, divDecide (divEffTime st loc)) ::
        divWalk inc rest ⟨some loc.curveId, loc.time, divNoHandles st loc⟩

/-- Embedding of `divideLocations` restricted to its division decisions:
the source iterates `for (var i = locations.length - 1; i >= 0; i--)`, so
the walk processes the reversed list.  The result lists the processed
locations in processing order together with the decision taken. -/
def divideLocations (locations : List DivLoc) (inc : Option (DivLoc → Bool)) :
    List (DivLoc × DivDecision) :=
  divWalk inc locations.reverse DivState.start

/-- The effective time as claim C5 words it: rescaled by the previously
processed location's time whenever the curves agree, with no condition on
the previous time; skipped exactly on the first location processed for a
curve.  `prev` carries the previous processed location's curve and
original time. -/
def claimEffTime (prev : Option (Nat × ℚ)) (loc : DivLoc) : ℚ :=
  match prev with
  | some (c, pt) => if c = loc.curveId then loc.time / pt else loc.time
  | none => loc.time

/-- The walk under claim C5's reading. -/
def divWalkClaim (inc : Option (DivLoc → Bool)) :
    List DivLoc → Option (Nat × ℚ) → List (DivLoc × DivDecision)
  | [], _ => []
  | loc :: rest, prev =>
    if (inc.map fun f => f loc) = some false then
      divWalkClaim inc rest prev
    else
      (loc, divDecide (claimEffTime prev loc)) ::
        divWalkClaim inc rest (some (loc.curveId, loc.time))

/-- Claim C5's reading of `divideLocations`, for comparison with the
embedding of the source. -/
def divideLocationsClaim (locations : List DivLoc) (inc : Option (DivLoc → Bool)) :
    List (DivLoc × DivDecision) :=
  divWalkClaim inc locations.reverse none

/-- The effective time as amended: the rescale happens exactly when the
curve equals the previously processed location's curve and that previous
original time lies within `[CURVETIME_EPSILON, 1 - CURVETIME_EPSILON]`,
i.e. when the previous location actually divided the curve. -/
def amendedEffTime (prev : Option (Nat × ℚ)) (loc : DivLoc) : ℚ :=
  match prev with
  | some (c, pt) =>
    if c = loc.curveId ∧ curvetimeEpsilon ≤ pt ∧ pt ≤ 1 - curvetimeEpsilon then
      loc.time / pt
    else loc.time
  | none => loc.time

/-- The walk under the amended reading of claim C5. -/
def divWalkAmended (inc : Option (DivLoc → Bool)) :
    List DivLoc → Option (Nat × ℚ) → List (DivLoc × DivDecision)
  | [], _ => []
  | loc :: rest, prev =>
    if (inc.map fun f => f loc) = some false then
      divWalkAmended inc rest prev
    else
      (loc, divDecide (amendedEffTime prev loc)) ::
        divWalkAmended inc rest (some (loc.curveId, loc.time))

/-- Claim C5 as amended. -/
def divideLocationsAmended (locations : List DivLoc) (inc : Option (DivLoc → Bool)) :
    List (DivLoc × DivDecision) :=
  divWalkAmended inc locations.reverse none

/-- The abstraction of the walk state that the amended walk tracks. -/
def DivState.abstract (st : DivState) : Option (Nat × ℚ) :=
  st.prevCurve.map fun c => (c, st.prevTime)

lemma divEffTime_eq_amended (st : DivState) (loc : DivLoc) :
    divEffTime st loc = amendedEffTime st.abstract loc := by
  rcases hpc : st.prevCurve with _ | c <;>
    simp [divEffTime, amendedEffTime, DivState.abstract, hpc]

lemma divWalk_eq_amended (inc : Option (DivLoc → Bool)) (locs : List DivLoc) :
    ∀ st : DivState, divWalk inc locs st = divWalkAmended inc locs st.abstract := by
  induction locs with
  | nil => intro st; rfl
  | cons loc rest ih =>
    intro st
    by_cases hskip : (inc.map fun f => f loc) = some false
    · simp only [divWalk, divWalkAmended, if_pos hskip]
      exact ih st
    · simp only [divWalk, divWalkAmended, if_neg hskip]
      rw [divEffTime_eq_amended]
      have := ih ⟨some loc.curveId, loc.time, divNoHandles st loc⟩
      rw [this]
      rfl

/-- The concrete input refuting claim C5 as stated: two locations on the
same curve, the later one (processed first, since the walk runs
back-to-front) at time `1 - 1e-9`, which exceeds `1 - CURVETIME_EPSILON`
and therefore maps to `segment2` without dividing. -/
def exDivLocs : List DivLoc :=
  [⟨0, false, 1 / 2⟩, ⟨0, false, 1 - 1 / 10 ^ 9⟩]

/-- C5, counterexample.  The claim states that the rescale `time / prevTime`
is skipped exactly on the first location processed for a curve.  On
`exDivLocs` the first processed location (time `1 - 1e-9 > 1 - tMin`) maps
to `segment2` without dividing, and the source then skips the rescale for
the second location as well (`prevTime > tMax`), dividing at `1/2`; under
the claim's reading the second location would be rescaled to
`(1/2) / (1 - 1e-9)`. -/
theorem C5_counterexample :
    divideLocations exDivLocs none ≠ divideLocationsClaim exDivLocs none := by
  norm_num [divideLocations, divideLocationsClaim, exDivLocs, divWalk, divWalkClaim,
    divDecide, divEffTime, claimEffTime, DivState.start, curvetimeEpsilon]
  simp
  norm_num

/-- C5 (amended): during `divideLocations`' back-to-front walk, a
location's time is rescaled to `time / prevTime` exactly when its curve
equals the previously processed location's curve AND the previous
original time lies within `[CURVETIME_EPSILON, 1 - CURVETIME_EPSILON]`
(i.e. the previous location actually divided the curve); in particular the
rescale is skipped on the first location processed for each curve, and
also when the previous location mapped to one of the curve's end
segments. -/
theorem C5_divideLocations_rescale (locations : List DivLoc)
    (inc : Option (DivLoc → Bool)) :
    divideLocations locations inc = divideLocationsAmended locations inc := by
  have h := divWalk_eq_amended inc locations.reverse DivState.start
  simpa [DivState.abstract, DivState.start] using h

/-- C10: a `CurveLocation` constructed with curve-time
`parameter ≥ 1 - CURVETIME_EPSILON` is merged to the beginning of the
following curve when `curve.getNext()` exists (stored curve becomes the
next curve, stored parameter becomes 0); without a next curve both are
stored unchanged. -/
theorem C10_curveLocation_end_merge (curve : MergeCurve) (parameter : ℚ)
    (h : 1 - curvetimeEpsilon ≤ parameter) :
    curveLocationInit curve parameter =
      (match curve.next with
       | some n => (n, 0)
       | none => (curve.id, parameter)) := by
  unfold curveLocationInit
  rw [if_pos h]

/-- Witness for C10 at the concrete input `curve = ⟨0, some 7⟩`,
`parameter = 1`. -/
theorem C10_curveLocation_end_merge_witness :
    1 - curvetimeEpsilon ≤ (1 : ℚ) ∧ curveLocationInit ⟨0, some 7⟩ 1 = (7, 0) :=
  ⟨by norm_num [curvetimeEpsilon],
    C10_curveLocation_end_merge ⟨0, some 7⟩ 1 (by norm_num [curvetimeEpsilon])⟩

/-! ### computeBoolean / computeOpenBoolean (src/path/PathItem.Boolean.js,
lines 1164-1283)

`computeBoolean` delegates to `computeOpenBoolean` when the first operand
is an open plain path; `computeOpenBoolean` guards against unsupported
combinations and returns `null` for them. -/

/-- The four boolean operations. -/
inductive BoolOperation
  | unite
  | intersect
  | subtract
  | exclude
deriving DecidableEq

/-- The operator value consulted by the engine: the winding lookup table
`operators[operation]` plus the flag added by `operator[operation] = true`
(one boolean per operation name). -/
structure OperatorFlags where
  lookup : Int → Bool
  unite : Bool
  intersect : Bool
  subtract : Bool
  exclude : Bool

/-- The `operators` table of the engine,

    var operators = {
        unite:     { 1: true },
        intersect: { 2: true },
        subtract:  { 1: true },
        exclude:   { 1: true }
    };

together with the boolean property added by `operator[operation] = true`
at the start of `computeBoolean`. -/
def operatorFor : BoolOperation → OperatorFlags
  | BoolOperation.unite => ⟨fun w => decide (w = 1), true, false, false, false⟩
  | BoolOperation.intersect => ⟨fun w => decide (w = 2), false, true, false, false⟩
  | BoolOperation.subtract => ⟨fun w => decide (w = 1), false, false, true, false⟩
  | BoolOperation.exclude => ⟨fun w => decide (w = 1), false, false, false, true⟩

/-- The structural data of an operand that the open/closed dispatch reads:
whether `_children` is set (a compound path) and whether `_closed` is
set. -/
structure BoolPathArg where
  hasChildren : Bool
  closed : Bool
deriving DecidableEq

/-- Stand-in for the `Group` result that `computeOpenBoolean` builds from
the crossings when its guard passes; the construction itself depends on
the intersection-finder collaborators and does not matter for the
null-vs-computed dichotomy of claim C7. -/
inductive OpenBooleanResult
  | group
deriving DecidableEq

/-- Embedding of the guard of `computeOpenBoolean`:

    if (!path2 || !path2._children && !path2._closed
            || !operator.subtract && !operator.intersect)
        return null; -/
def computeOpenBoolean (path2 : Option BoolPathArg) (operator : OperatorFlags) :
    Option OpenBooleanResult :=
  match path2 with
  | none => none
  | some p2 =>
    if (!p2.hasChildren && !p2.closed) || (!operator.subtract && !operator.intersect) then
      none
    else
      some OpenBooleanResult.group

/-- The route `computeBoolean` takes: delegation to `computeOpenBoolean`
(with its result), or the closed-operand pipeline. -/
inductive BooleanRoute
  | openRoute (result : Option OpenBooleanResult)
  | closedPipeline
deriving DecidableEq

/-- Embedding of the dispatch at the top of `computeBoolean`:

    var operator = operators[operation];
    operator[operation] = true;
    if (!path1._children && !path1._closed)
        return computeOpenBoolean(path1, path2, operator); -/
def computeBoolean (path1 : BoolPathArg) (path2 : Option BoolPathArg)
    (operation : BoolOperation) : BooleanRoute :=
  if !path1.hasChildren && !path1.closed then
    BooleanRoute.openRoute (computeOpenBoolean path2 (operatorFor operation))
  else
    BooleanRoute.closedPipeline

/-- C7: when the first operand is an open plain path, the operation is
dispatched to the open-path code path; that path computes a result exactly
when the operation is subtract or intersect and the second operand exists
and is closed (compound second operands are assumed closed by the source),
and returns null for every other combination. -/
theorem C7_open_operand_guard (path1 : BoolPathArg) (path2 : Option BoolPathArg)
    (operation : BoolOperation)
    (h1 : path1.hasChildren = false) (h2 : path1.closed = false) :
    computeBoolean path1 path2 operation =
        BooleanRoute.openRoute (computeOpenBoolean path2 (operatorFor operation)) ∧
    (computeOpenBoolean path2 (operatorFor operation) ≠ none ↔
      ((operation = BoolOperation.subtract ∨ operation = BoolOperation.intersect) ∧
        (match path2 with
         | none => False
         | some p2 => p2.hasChildren = true ∨ p2.closed = true))) := by
  cases operation <;> rcases path2 with _ | ⟨hc, cl⟩ <;> try cases hc <;> try cases cl
  all_goals simp [computeBoolean, computeOpenBoolean, operatorFor, h1, h2]

/-- Witness for C7: an open plain first operand subtracted by a closed
plain path. -/
theorem C7_open_operand_guard_witness :
    (BoolPathArg.mk false false).hasChildren = false ∧
    (BoolPathArg.mk false false).closed = false ∧
    (computeBoolean ⟨false, false⟩ (some ⟨false, true⟩) BoolOperation.subtract =
        BooleanRoute.openRoute
          (computeOpenBoolean (some ⟨false, true⟩) (operatorFor BoolOperation.subtract)) ∧
      (computeOpenBoolean (some ⟨false, true⟩) (operatorFor BoolOperation.subtract) ≠ none ↔
        ((BoolOperation.subtract = BoolOperation.subtract ∨
            BoolOperation.subtract = BoolOperation.intersect) ∧
          (match (some (BoolPathArg.mk false true) : Option BoolPathArg) with
           | none => False
           | some p2 => p2.hasChildren = true ∨ p2.closed = true)))) :=
  ⟨rfl, rfl,
    C7_open_operand_guard ⟨false, false⟩ (some ⟨false, true⟩) BoolOperation.subtract rfl rfl⟩

/-! ### propagateWinding (src/path/PathItem.Boolean.js, lines 1576-1624)

`propagateWinding` collects the curve chain starting at a seed segment,
samples the chain at half its total length, computes one winding value for
the sample, and assigns it to every segment of the chain. -/

/-- The result record of `getWinding`, also assigned by
`propagateWinding` to `segment._winding` / `segment._contour`.  The
`{ winding: 0 }` literal of the subtract case leaves `contour` undefined,
which the model renders as `false`. -/
structure WindingRes where
  winding : Int
  contour : Bool
deriving DecidableEq

/-- A segment as seen by the chain collection of `propagateWinding`:
whether `segment._intersection` is set, the length of the segment's curve
(collaborator `curve.getLength()`), and `segment.getNext()`. -/
structure PropSegment where
  hasIntersection : Bool
  curveLength : ℚ
  next : Option Nat
deriving DecidableEq

/-- Embedding of the chain collection,

    do {
        chain.push(...); totalLength += length;
        segment = segment.getNext();
    } while (segment && !segment._intersection && segment !== start);

listing the visited segment indices in order.  The fuel bounds the walk;
the source's loop is bounded by the path length. -/
def collectChain (segs : List PropSegment) (start : Nat) : Nat → Nat → List Nat
  | 0, _ => []
  | fuel + 1, cur =>
    cur ::
      match (segs.get? cur).bind (fun s => s.next) with
      | none => []
      | some nxt =>
        match segs.get? nxt with
        | none => []
        | some s =>
          if s.hasIntersection then []
          else if nxt = start then []
          else collectChain segs start fuel nxt

/-- The curve length attributed to a chain entry. -/
def chainLength (segs : List PropSegment) (j : Nat) : ℚ :=
  ((segs.get? j).map fun s => s.curveLength).getD 0

/-- Embedding of the sampling loop of `propagateWinding`: with
`length = totalLength / 2`, find the first chain entry whose curve
contains the remaining arc length,

    for (var j = 0, l = chain.length; j < l; j++) {
        ...
        if (length <= curveLength) { ... break; }
        length -= curveLength;
    } -/
def sampleChainEntry (segs : List PropSegment) : ℚ → List Nat → Option Nat
  | _, [] => none
  | length, j :: rest =>
    if length ≤ chainLength segs j then some j
    else sampleChainEntry segs (length - chainLength segs j) rest

/-- The sampled data that the winding decision of `propagateWinding`
consults, per chain entry: whether the sampled curve's (compound-adjusted)
path is `_path1` or `_path2`, the values of `path1._getWinding(pt, hor)`
and `path2._getWinding(pt, hor)` at the sample point, and the ray-cast
result `getWinding(pt, curves, hor)`.  `subtractOp` is `operator.subtract`
and `hasPath2` the truthiness of `path2`. -/
structure PropEnv where
  subtractOp : Bool
  hasPath2 : Bool
  sampleIsPath1 : Nat → Bool
  sampleIsPath2 : Nat → Bool
  winding1 : Nat → Int
  winding2 : Nat → Int
  rayWinding : Nat → WindingRes

/-- Embedding of `propagateWinding`: the winding decision

    winding = !(operator.subtract && path2 && (
            path === path1 &&  path2._getWinding(pt, hor) ||
            path === path2 && !path1._getWinding(pt, hor)))
                ? getWinding(pt, curves, hor)
                : { winding: 0 };

applied at the sampled chain entry, then assigned to every chain segment.
If the sampling loop finds no entry the source leaves `winding` undefined;
the model uses `⟨0, false⟩` for that unreachable case. -/
def propagateWinding (env : PropEnv) (segs : List PropSegment) (seed fuel : Nat) :
    List (Nat × WindingRes) :=
  let chain := collectChain segs seed fuel seed
  let total := (chain.map (chainLength segs)).sum
  let w :=
    match sampleChainEntry segs (total / 2) chain with
    | some j =>
      if env.subtractOp = true ∧ env.hasPath2 = true ∧
          ((env.sampleIsPath1 j = true ∧ env.winding2 j ≠ 0) ∨
           (env.sampleIsPath2 j = true ∧ env.winding1 j = 0)) then
        ⟨0, false⟩
      else env.rayWinding j
    | none => ⟨0, false⟩
  chain.map fun j => (j, w)

/-- C2: for the subtract operation with a second operand present, every
segment of the chain receives winding 0 when the sampled point's path is
operand A with nonzero winding in operand B, or operand B with zero
winding in operand A; in every other case every chain segment receives the
ray-cast winding of the sampled point. -/
theorem C2_propagateWinding_subtract (env : PropEnv) (segs : List PropSegment)
    (seed fuel : Nat) (j : Nat)
    (hsub : env.subtractOp = true) (hp2 : env.hasPath2 = true)
    (hj : sampleChainEntry segs
        (((collectChain segs seed fuel seed).map (chainLength segs)).sum / 2)
        (collectChain segs seed fuel seed) = some j) :
    (propagateWinding env segs seed fuel).all
      (fun p => decide (p.2 =
        if (env.sampleIsPath1 j = true ∧ env.winding2 j ≠ 0) ∨
            (env.sampleIsPath2 j = true ∧ env.winding1 j = 0) then
          WindingRes.mk 0 false
        else env.rayWinding j)) = true := by
  unfold propagateWinding
  simp only [hj, hsub, hp2, true_and]
  simp [List.all_eq_true]

/-- Concrete input for the C2 witness: a single segment without
intersection forming a one-entry chain. -/
def exPropSegs : List PropSegment := [⟨false, 1, none⟩]

/-- Concrete sample environment for the C2 witness: the sampled point lies
on operand A and has winding 5 in operand B, so subtract nulls the
chain. -/
def exPropEnv : PropEnv :=
  ⟨true, true, fun _ => true, fun _ => false, fun _ => 0, fun _ => 5, fun _ => ⟨7, true⟩⟩

/-- Witness for C2 at the concrete inputs `exPropEnv`, `exPropSegs`. -/
theorem C2_propagateWinding_subtract_witness :
    exPropEnv.subtractOp = true ∧ exPropEnv.hasPath2 = true ∧
    sampleChainEntry exPropSegs
        (((collectChain exPropSegs 0 1 0).map (chainLength exPropSegs)).sum / 2)
        (collectChain exPropSegs 0 1 0) = some 0 ∧
    (propagateWinding exPropEnv exPropSegs 0 1).all
      (fun p => decide (p.2 =
        if (exPropEnv.sampleIsPath1 0 = true ∧ exPropEnv.winding2 0 ≠ 0) ∨
            (exPropEnv.sampleIsPath2 0 = true ∧ exPropEnv.winding1 0 = 0) then
          WindingRes.mk 0 false
        else exPropEnv.rayWinding 0)) = true := by
  have hj : sampleChainEntry exPropSegs
      (((collectChain exPropSegs 0 1 0).map (chainLength exPropSegs)).sum / 2)
      (collectChain exPropSegs 0 1 0) = some 0 := by
    norm_num [sampleChainEntry, collectChain, chainLength, exPropSegs]
  exact ⟨rfl, rfl, hj,
    C2_propagateWinding_subtract exPropEnv exPropSegs 0 1 0 rfl rfl hj⟩

/-! ### CompoundPath#reorient (src/path/PathItem.Boolean.js, lines 1079-1098)

`reorient` sorts the children by bounding-box area descending, keeps the
orientation of the largest child, and for every later child sets

    children[i].setClockwise(counters % 2 === 0 && clockwise);

where `counters` counts the already-processed larger children containing
the child's interior point. -/

/-- A child path as `reorient` sees it: an identity (standing for its
geometry, which reorientation does not change), the value of
`getBounds().getArea()`, and the clockwise flag. -/
structure RPath where
  id : Nat
  boundsArea : ℚ
  clockwise : Bool
deriving DecidableEq

/-- Insertion of one path into a list sorted by bounding-box area
descending (model of the `sort` call with comparator
`b.getBounds().getArea() - a.getBounds().getArea()`; JS leaves the order
of ties unspecified, the model keeps input order for ties). -/
def insertByArea (p : RPath) : List RPath → List RPath
  | [] => [p]
  | q :: rest =>
    if q.boundsArea < p.boundsArea then p :: q :: rest else q :: insertByArea p rest

/-- Sorting by bounding-box area descending. -/
def sortByAreaDesc : List RPath → List RPath
  | [] => []
  | p :: rest => insertByArea p (sortByAreaDesc rest)

/-- Embedding of `reorient`'s per-child loop.  `contains j i` is the
collaborator call `children[j].contains(children[i].getInteriorPoint())`,
keyed by path identity: containment is a property of the geometry and is
unaffected by `setClockwise`.  `acc` is the list of already-processed
(possibly reoriented) larger children. -/
def reorientAssign (contains : Nat → Nat → Bool) (clockwise : Bool) :
    List RPath → List RPath → List RPath
  | _, [] => []
  | acc, q :: rest =>
    let q' : RPath :=
      { q with clockwise :=
          decide (((acc.filter fun r => contains r.id q.id).length) % 2 = 0) && clockwise }
    q' :: reorientAssign contains clockwise (acc ++ [q']) rest

/-- Embedding of `CompoundPath#reorient` (restricted to the orientation
assignment; the source also re-adds the sorted children to the compound
path). -/
def reorient (contains : Nat → Nat → Bool) (children : List RPath) : List RPath :=
  match sortByAreaDesc children with
  | [] => []
  | first :: rest => first :: reorientAssign contains first.clockwise [first] rest

/-- The loop as claim C4 words it: `clockwise(P) = (depth even) ==
clockwise(largest)`, with the depth counted over the larger (original)
children. -/
def reorientClaimAssign (contains : Nat → Nat → Bool) (clockwise : Bool) :
    List RPath → List RPath → List RPath
  | _, [] => []
  | accOrig, q :: rest =>
    { q with clockwise :=
        (decide (((accOrig.filter fun r => contains r.id q.id).length) % 2 = 0) == clockwise) }
      :: reorientClaimAssign contains clockwise (accOrig ++ [q]) rest

/-- Claim C4's reading of `reorient`. -/
def reorientClaim (contains : Nat → Nat → Bool) (children : List RPath) : List RPath :=
  match sortByAreaDesc children with
  | [] => []
  | first :: rest => first :: reorientClaimAssign contains first.clockwise [first] rest

/-- The loop as amended: `clockwise(P) = (depth even) && clockwise(largest)`,
with the depth counted over the larger children in their original (input)
orientation — equivalent to the source's count over the already-reoriented
children because containment only depends on the geometry. -/
def reorientAmendedAssign (contains : Nat → Nat → Bool) (clockwise : Bool) :
    List RPath → List RPath → List RPath
  | _, [] => []
  | accOrig, q :: rest =>
    { q with clockwise :=
        (decide (((accOrig.filter fun r => contains r.id q.id).length) % 2 = 0) && clockwise) }
      :: reorientAmendedAssign contains clockwise (accOrig ++ [q]) rest

/-- Claim C4 as amended. -/
def reorientAmended (contains : Nat → Nat → Bool) (children : List RPath) : List RPath :=
  match sortByAreaDesc children with
  | [] => []
  | first :: rest => first :: reorientAmendedAssign contains first.clockwise [first] rest

lemma filter_length_map_id (contains : Nat → Nat → Bool) (target : Nat) :
    ∀ A : List RPath,
      (A.filter fun r => contains r.id target).length =
        ((A.map fun p => p.id).filter fun i => contains i target).length := by
  intro A
  induction A with
  | nil => rfl
  | cons a l ih =>
    by_cases hc : contains a.id target = true <;>
      simp [List.filter_cons, hc, ih]

lemma filter_length_of_id_map_eq (contains : Nat → Nat → Bool) (target : Nat)
    (A B : List RPath) (h : A.map (fun p => p.id) = B.map (fun p => p.id)) :
    (A.filter fun r => contains r.id target).length =
      (B.filter fun r => contains r.id target).length := by
  rw [filter_length_map_id, filter_length_map_id, h]

lemma reorientAssign_eq_amended (contains : Nat → Nat → Bool) (clockwise : Bool) :
    ∀ (l acc accOrig : List RPath),
      acc.map (fun p => p.id) = accOrig.map (fun p => p.id) →
      reorientAssign contains clockwise acc l =
        reorientAmendedAssign contains clockwise accOrig l := by
  intro l
  induction l with
  | nil => intro acc accOrig _; rfl
  | cons q rest ih =>
    intro acc accOrig hids
    simp only [reorientAssign, reorientAmendedAssign]
    have hcount := filter_length_of_id_map_eq contains q.id acc accOrig hids
    rw [hcount]
    exact congrArg _ (ih _ _ (by simp [hids]))

/-- C4 (amended): after sorting by bounding-box area descending the
largest path keeps its orientation, and every other path P is set so that
`clockwise(P) = ((number of larger paths containing P's interior point is
even) AND clockwise(largest))` — the source's `counters % 2 === 0 &&
clockwise` — not the claimed equality with `clockwise(largest)`.  (This is
the legacy `CompoundPath#reorient`; the rewritten `resolveCrossings`
instead alternates the orientation from the nearest containing path.) -/
theorem C4_reorient_orientation (contains : Nat → Nat → Bool) (children : List RPath) :
    reorient contains children = reorientAmended contains children := by
  unfold reorient reorientAmended
  cases h : sortByAreaDesc children with
  | nil => rfl
  | cons first rest =>
    show first :: reorientAssign contains first.clockwise [first] rest =
      first :: reorientAmendedAssign contains first.clockwise [first] rest
    exact congrArg _ (reorientAssign_eq_amended contains first.clockwise rest [first] [first] rfl)

/-- A containment relation for the C4 counterexample: the largest path 0
contains the interior point of path 1. -/
def exReorientContains : Nat → Nat → Bool := fun j i => decide (j = 0 ∧ i = 1)

/-- Children for the C4 counterexample: the largest path is
counter-clockwise and contains the other one. -/
def exRPaths : List RPath := [⟨0, 100, false⟩, ⟨1, 10, false⟩]

/-- C4, counterexample.  With a counter-clockwise largest path, the source
sets the contained path to `counters % 2 === 0 && clockwise = false`,
while the claim's `(depth even) == clockwise(largest)` would make it
`true` (depth 1 is odd, largest counter-clockwise). -/
theorem C4_counterexample :
    reorient exReorientContains exRPaths ≠ reorientClaim exReorientContains exRPaths := by
  norm_num [reorient, reorientClaim, sortByAreaDesc, insertByArea, reorientAssign,
    reorientClaimAssign, exReorientContains, exRPaths, List.filter]

/-! ### Path#getInteriorPoint (src/path/PathItem.Boolean.js, lines 2072-2126)

When the bounding-box centre is not contained in the path, a horizontal
ray is cast from the centre against the y-monotone pieces of the path's
curves, and the point is moved to the midpoint of the first two
x-intercepts in ascending order. -/

/-- Indexing into an 8-entry curve-value array `[x0,y0,x1,y1,x2,y2,x3,y3]`;
out-of-range indices (which the source never produces) give 0. -/
def vget (v : List ℚ) (i : Nat) : ℚ := v.getD i 0

/-- The environment of `Path#getInteriorPoint`: the bounding-box centre
(collaborator `getBounds().getCenter(true)`), the containment test
(collaborator `contains(point)`), the path's curve values, the monotone
decomposition (collaborator `Curve.getMonoCurves(values, coord)`), and the
single-root cubic solver (collaborator chain
`Curve.solveCubic(v, 1, y, roots, 0, 1) === 1 ?
Curve.getPoint(v, roots[0]).x : ...`, returning `some x` exactly when the
solver finds one root). -/
structure InteriorEnv where
  centerX : ℚ
  centerY : ℚ
  containsCenter : Bool
  curves : List (List ℚ)
  getMono : List ℚ → Nat → List (List ℚ)
  solveOneX : List ℚ → ℚ → Option ℚ

/-- Embedding of the mono-curve collection loop of `getInteriorPoint`:
curves whose y-range straddles the centre's y are decomposed, and each
monotone piece straddling y with nonzero winding is kept together with its
winding. -/
def interiorMonoCurves (env : InteriorEnv) : List (List ℚ × Int) :=
  let y := env.centerY
  env.curves.flatMap fun v =>
    if (vget v 1 ≤ y ∨ vget v 3 ≤ y ∨ vget v 5 ≤ y ∨ vget v 7 ≤ y) ∧
        (y ≤ vget v 1 ∨ y ≤ vget v 3 ∨ y ≤ vget v 5 ∨ y ≤ vget v 7) then
      (env.getMono v 0).filterMap fun m =>
        if (vget m 1 ≤ y ∧ y ≤ vget m 7) ∨ (vget m 7 ≤ y ∧ y ≤ vget m 1) then
          let w : Int := if vget m 7 < vget m 1 then 1 else if vget m 1 < vget m 7 then -1 else 0
          if w ≠ 0 then some (m, w) else none
        else none
    else []

/-- Embedding of the x-intercept of one monotone piece:

    var x = y === v[1] ? v[0]
        : y === v[7] ? v[6]
        : Curve.solveCubic(v, 1, y, roots, 0, 1) === 1
            ? Curve.getPoint(v, roots[0]).x
            : (v[0] + v[6]) / 2; -/
def interceptOf (env : InteriorEnv) (m : List ℚ) : ℚ :=
  let y := env.centerY
  if y = vget m 1 then vget m 0
  else if y = vget m 7 then vget m 6
  else
    match env.solveOneX m y with
    | some x => x
    | none => (vget m 0 + vget m 6) / 2

/-- Ascending insertion for the model of
`intercepts.sort(function(a, b) { return a - b; })`. -/
def insertAsc (x : ℚ) : List ℚ → List ℚ
  | [] => [x]
  | y :: rest => if y < x then y :: insertAsc x rest else x :: y :: rest

/-- Ascending sort of the intercept list. -/
def sortAsc : List ℚ → List ℚ
  | [] => []
  | x :: rest => insertAsc x (sortAsc rest)

/-- Embedding of `Path#getInteriorPoint` (second rewrite).  The result's
first component is the x coordinate; `none` encodes the NaN produced by
`(intercepts[0] + intercepts[1]) / 2` when `intercepts[1]` is undefined
(JS arithmetic on `undefined`). -/
def getInteriorPoint (env : InteriorEnv) : Option ℚ × ℚ :=
  if env.containsCenter then (some env.centerX, env.centerY)
  else
    let monos := interiorMonoCurves env
    if monos.length = 0 then (some env.centerX, env.centerY)
    else
      match sortAsc (monos.map fun mw => interceptOf env mw.1) with
      | a :: b :: _ => (some ((a + b) / 2), env.centerY)
      | _ => (none, env.centerY)

/-- Claim C9 as amended, by the shape of the sorted intercept list: no
intercepts give the centre back unchanged, a single intercept yields an
undefined (NaN) x coordinate, and two or more give the midpoint of the two
smallest. -/
def getInteriorPointAmended (env : InteriorEnv) : Option ℚ × ℚ :=
  if env.containsCenter then (some env.centerX, env.centerY)
  else
    match sortAsc ((interiorMonoCurves env).map fun mw => interceptOf env mw.1) with
    | [] => (some env.centerX, env.centerY)
    | [_] => (none, env.centerY)
    | a :: b :: _ => (some ((a + b) / 2), env.centerY)

lemma insertAsc_length (x : ℚ) (l : List ℚ) : (insertAsc x l).length = l.length + 1 := by
  induction l with
  | nil => rfl
  | cons y rest ih =>
    by_cases hc : y < x <;> simp [insertAsc, hc, ih]

lemma sortAsc_length (l : List ℚ) : (sortAsc l).length = l.length := by
  induction l with
  | nil => rfl
  | cons x rest ih => simp [sortAsc, insertAsc_length, ih]

/-- C9 (amended): for a path whose bounding-box centre is not contained,
`getInteriorPoint` returns the midpoint of the two smallest x-intercepts
when at least two exist; with no intercepts against the monotone curves it
returns the centre unchanged; with exactly one intercept it returns a
point whose x coordinate is NaN (undefined arithmetic), not the centre. -/
theorem C9_interior_point_cases (env : InteriorEnv) :
    getInteriorPoint env = getInteriorPointAmended env := by
  unfold getInteriorPoint getInteriorPointAmended
  by_cases hc : env.containsCenter
  · simp [hc]
  · simp only [hc, if_false, Bool.false_eq_true]
    by_cases hm : (interiorMonoCurves env).length = 0
    · have hnil : interiorMonoCurves env = [] := List.length_eq_zero.mp hm
      simp [hm, hnil, sortAsc]
    · rw [if_neg hm]
      have hlen : (sortAsc ((interiorMonoCurves env).map fun mw => interceptOf env mw.1)).length =
          (interiorMonoCurves env).length := by
        rw [sortAsc_length, List.length_map]
      cases hs : sortAsc ((interiorMonoCurves env).map fun mw => interceptOf env mw.1) with
      | nil =>
        rw [hs] at hlen
        exact absurd hlen.symm hm
      | cons a rest =>
        cases rest with
        | nil => rfl
        | cons b rest2 => rfl

/-- The input refuting claim C9 as stated: a degenerate path made of one
straight vertical curve from (0,0) to (0,100).  Its bounding-box centre is
(0,50), not contained (the path has no area); the decomposition of a
straight curve is the curve itself; the solver finds the single root at
y = 50 with x = 0. -/
def exInteriorEnv : InteriorEnv where
  centerX := 0
  centerY := 50
  containsCenter := false
  curves := [[0, 0, 0, 0, 0, 100, 0, 100]]
  getMono := fun v _ => [v]
  solveOneX := fun v y =>
    if v = [0, 0, 0, 0, 0, 100, 0, 100] ∧ y = 50 then some 0 else none

/-- C9, counterexample.  On `exInteriorEnv` exactly one intercept is
collected, and the result is a point with undefined (NaN) x coordinate,
not the bounding-box centre that the claim promises for fewer than two
intercepts. -/
theorem C9_counterexample :
    (interiorMonoCurves exInteriorEnv).length = 1 ∧
    exInteriorEnv.containsCenter = false ∧
    getInteriorPoint exInteriorEnv ≠ (some exInteriorEnv.centerX, exInteriorEnv.centerY) := by
  refine ⟨?_, rfl, ?_⟩
  · norm_num [interiorMonoCurves, exInteriorEnv, vget, List.filterMap_cons]
  · norm_num [getInteriorPoint, interiorMonoCurves, interceptOf, sortAsc, insertAsc,
      exInteriorEnv, vget, List.filterMap_cons]
    simp

/-! ### addWinding / getWinding (src/path/PathItem.Boolean.js, lines
1390-1574)

The ray cast accumulates separate left and right windings (`windings[0]`,
`windings[1]`), per-path windings, an on-path flag and an `onPathWinding`
fallback, and finally maps the accumulated counts through
`w && (2 - abs(w) % 2)`. -/

/-- Geometry collaborators of the winding ray cast:
`getMono v coord` is `Curve.getMonoCurves(v, coord)`, and
`solveAbscissa v coord po` is `some a` exactly when
`Curve.solveCubic(v, coord ? 0 : 1, po, roots, 0, 1) === 1`, with `a` the
abscissa `Curve.getPoint(v, roots[0])[coord ? 'y' : 'x']`. -/
structure WindGeom where
  getMono : List ℚ → Nat → List (List ℚ)
  solveAbscissa : List ℚ → Nat → ℚ → Option ℚ

/-- The state threaded through `addWinding` while one path's curves are
processed: the per-path winding counters `pathWindings`, the `isOnPath`
flag, and the previous non-horizontal curve values `vPrev` (updated with
each return value of `addWinding`). -/
structure AddWindState where
  w0 : Int
  w1 : Int
  isOnCurve : Bool
  vPrev : List ℚ
deriving DecidableEq

/-- Embedding of `addWinding(v, vPrev, px, py, windings, isOnCurve, coord)`.
The returned state carries the function's return value in `vPrev`. -/
def addWinding (geom : WindGeom) (px py : ℚ) (coord : Nat)
    (st : AddWindState) (v : List ℚ) : AddWindState :=
  let pa := if coord ≠ 0 then py else px
  let po := if coord ≠ 0 then px else py
  let vo0 := vget v (1 - coord)
  let vo3 := vget v (7 - coord)
  if (po < vo0 ∧ po < vo3) ∨ (vo0 < po ∧ vo3 < po) then
    -- curve is outside the ordinates' range: `return v`
    { st with vPrev := v }
  else
    let aBefore := pa - windingEpsilon
    let aAfter := pa + windingEpsilon
    let va0 := vget v coord
    let va1 := vget v (2 + coord)
    let va2 := vget v (4 + coord)
    let va3 := vget v (6 + coord)
    if vo0 = vo3 then
      -- horizontal curve: flag on-curve when it straddles the band, `return vPrev`
      let onc := st.isOnCurve ∨ (va1 ≤ aAfter ∧ aBefore ≤ va3) ∨
        (va3 ≤ aAfter ∧ aBefore ≤ va1)
      { st with isOnCurve := onc }
    else
      let a :=
        if po = vo0 then va0
        else if po = vo3 then va3
        else if (va0 < aBefore ∧ va1 < aBefore ∧ va2 < aBefore ∧ va3 < aBefore) ∨
            (aAfter < va0 ∧ aAfter < va1 ∧ aAfter < va2 ∧ aAfter < va3) then
          (va0 + va3) / 2
        else
          match geom.solveAbscissa v coord po with
          | some x => x
          | none => (va0 + va3) / 2
      let winding : Int := if vo3 < vo0 then 1 else -1
      let prevWinding : Int :=
        if vget st.vPrev (7 - coord) < vget st.vPrev (1 - coord) then 1 else -1
      let prevAEnd := vget st.vPrev (6 + coord)
      if po ≠ vo0 then
        -- standard case: the curve is crossed, not at its start point
        if a < aBefore then { st with w0 := st.w0 + winding, vPrev := v }
        else if aAfter < a then { st with w1 := st.w1 + winding, vPrev := v }
        else
          { w0 := st.w0 + winding, w1 := st.w1 + winding, isOnCurve := true, vPrev := v }
      else if winding ≠ prevWinding then
        -- crossed at the start point with a winding change: cancel the
        -- previous curve's contribution depending on its end abscissa
        { st with
            w0 := if prevAEnd ≤ aAfter then st.w0 + winding else st.w0,
            w1 := if aBefore ≤ prevAEnd then st.w1 + winding else st.w1,
            vPrev := v }
      else if (prevAEnd < aBefore ∧ aBefore ≤ a) ∨ (aAfter < prevAEnd ∧ a ≤ aAfter) then
        -- point on a horizontal run between the previous and current curve
        if prevAEnd < aBefore then
          { st with w1 := st.w1 + winding, isOnCurve := true, vPrev := v }
        else
          { st with w0 := st.w0 + winding, isOnCurve := true, vPrev := v }
      else
        { st with vPrev := v }

/-- One path of the aggregated curve array passed to `getWinding`: the
source's flat array is grouped by `curve.getPath()`; the path's
`isClockwise()` and `_closed` flags are consulted at its boundary. -/
structure WindPath where
  closed : Bool
  clockwise : Bool
  curves : List (List ℚ)

/-- Embedding of the `vPrev` initialisation at a path boundary: walk
`curve.getPrevious()` from the path's first curve (wrapping only on closed
paths) until a non-horizontal curve is found, else fall back to the first
curve's own values. -/
def findVPrev (coord : Nat) (p : WindPath) : List ℚ :=
  match p.curves with
  | [] => []
  | v0 :: rest =>
    if p.closed then
      ((rest.reverse.find? fun v => !decide (vget v (1 - coord) = vget v (7 - coord)))).getD v0
    else v0

/-- Embedding of the per-curve body of the `getWinding` loop: the ordinate
range check, the abscissa fast reject (treating a fully-left or
fully-right curve as a single monotone piece), and the fold of
`addWinding` over the monotone pieces. -/
def windCurveStep (geom : WindGeom) (px py : ℚ) (coord : Nat)
    (st : AddWindState) (v : List ℚ) : AddWindState :=
  let pa := if coord ≠ 0 then py else px
  let po := if coord ≠ 0 then px else py
  let aBefore := pa - windingEpsilon
  let aAfter := pa + windingEpsilon
  let vo0 := vget v (1 - coord)
  let vo1 := vget v (3 - coord)
  let vo2 := vget v (5 - coord)
  let vo3 := vget v (7 - coord)
  if (po ≤ vo0 ∨ po ≤ vo1 ∨ po ≤ vo2 ∨ po ≤ vo3) ∧
      (vo0 ≤ po ∨ vo1 ≤ po ∨ vo2 ≤ po ∨ vo3 ≤ po) then
    let va0 := vget v coord
    let va1 := vget v (2 + coord)
    let va2 := vget v (4 + coord)
    let va3 := vget v (6 + coord)
    let monoCurves :=
      if (va0 < aBefore ∧ va1 < aBefore ∧ va2 < aBefore ∧ va3 < aBefore) ∨
          (aAfter < va0 ∧ aAfter < va1 ∧ aAfter < va2 ∧ aAfter < va3) then
        [v]
      else geom.getMono v coord
    monoCurves.foldl (addWinding geom px py coord) st
  else st

/-- The accumulated state of `getWinding` across path boundaries: the
global winding counters `windings[0]` / `windings[1]` and the on-path
fallback `onPathWinding`. -/
structure WindAccum where
  windings0 : Int
  windings1 : Int
  onPathWinding : Int
deriving DecidableEq

/-- Embedding of one path's contribution to `getWinding`, including the
boundary handling

    if (!pathWindings[0] && !pathWindings[1] && isOnPath[0]) {
        onPathWinding += curve.getPath().isClockwise() ? 1 : -1;
    } else {
        windings[0] += pathWindings[0];
        windings[1] += pathWindings[1];
    } -/
def windPathStep (geom : WindGeom) (px py : ℚ) (coord : Nat)
    (acc : WindAccum) (p : WindPath) : WindAccum :=
  let st0 : AddWindState := ⟨0, 0, false, findVPrev coord p⟩
  let st := p.curves.foldl (windCurveStep geom px py coord) st0
  if st.w0 = 0 ∧ st.w1 = 0 ∧ st.isOnCurve = true then
    { acc with onPathWinding := acc.onPathWinding + (if p.clockwise then 1 else -1) }
  else
    { acc with windings0 := acc.windings0 + st.w0, windings1 := acc.windings1 + st.w1 }

/-- The accumulation phase of `getWinding`: all curves processed, grouped
by path, with the per-path boundary handling applied. -/
def getWindingCore (geom : WindGeom) (px py : ℚ) (paths : List WindPath)
    (horizontal : Bool) : WindAccum :=
  let coord := if horizontal then 1 else 0
  paths.foldl (windPathStep geom px py coord) ⟨0, 0, 0⟩

/-- The final accumulated left winding count: the `onPathWinding` fallback
replaces both counters when they are zero,

    if (windings[0] === 0 && windings[1] === 0) {
        windings[0] = onPathWinding;
        windings[1] = onPathWinding;
    } -/
def accumulatedLeft (geom : WindGeom) (px py : ℚ) (paths : List WindPath)
    (horizontal : Bool) : Int :=
  let acc := getWindingCore geom px py paths horizontal
  if acc.windings0 = 0 ∧ acc.windings1 = 0 then acc.onPathWinding else acc.windings0

/-- The final accumulated right winding count (see `accumulatedLeft`). -/
def accumulatedRight (geom : WindGeom) (px py : ℚ) (paths : List WindPath)
    (horizontal : Bool) : Int :=
  let acc := getWindingCore geom px py paths horizontal
  if acc.windings0 = 0 ∧ acc.windings1 = 0 then acc.onPathWinding else acc.windings1

/-- Embedding of `getWinding`'s return value,

    var windLeft = windings[0] && (2 - abs(windings[0]) % 2),
        windRight = windings[1] && (2 - abs(windings[1]) % 2);
    return { winding: Math.max(windLeft, windRight),
             contour: !windLeft ^ !windRight }; -/
def getWinding (geom : WindGeom) (px py : ℚ) (paths : List WindPath)
    (horizontal : Bool) : WindingRes :=
  let w0 := accumulatedLeft geom px py paths horizontal
  let w1 := accumulatedRight geom px py paths horizontal
  let windLeft : Int := if w0 = 0 then 0 else 2 - ((w0.natAbs : Int) % 2)
  let windRight : Int := if w1 = 0 then 0 else 2 - ((w1.natAbs : Int) % 2)
  ⟨max windLeft windRight, (decide (windLeft = 0)) != (decide (windRight = 0))⟩

/-- Claim C1's mapping `f(w) = w = 0 ? 0 : 2 - (|w| mod 2)`. -/
def claimModTwoMap (w : Int) : Int :=
  if w = 0 then 0 else 2 - ((w.natAbs : Int) % 2)

/-- Claim C1's contour: exactly one of the two accumulated winding counts
is zero. -/
def claimContour (l r : Int) : Bool :=
  decide ((l = 0 ∧ r ≠ 0) ∨ (l ≠ 0 ∧ r = 0))

lemma modTwoMapped_ne_zero (w : Int) : ¬(2 - |w| % 2 = 0) := by
  have hge : 0 ≤ |w| % 2 := Int.emod_nonneg _ (by norm_num)
  have hlt : |w| % 2 < 2 := Int.emod_lt_of_pos _ (by norm_num)
  omega

/-- C1: for every geometry, query point, curve list and ray direction,
`getWinding` returns `winding = max(f(windLeft), f(windRight))` with
`f(w) = 0` for `w = 0` and `2 - (|w| mod 2)` otherwise, and
`contour = true` iff exactly one of the accumulated left/right winding
counts is zero (the counts being the accumulated `windings[0]` /
`windings[1]` after the `onPathWinding` fallback). -/
theorem C1_getWinding_return (geom : WindGeom) (px py : ℚ)
    (paths : List WindPath) (horizontal : Bool) :
    getWinding geom px py paths horizontal =
      ⟨max (claimModTwoMap (accumulatedLeft geom px py paths horizontal))
          (claimModTwoMap (accumulatedRight geom px py paths horizontal)),
        claimContour (accumulatedLeft geom px py paths horizontal)
          (accumulatedRight geom px py paths horizontal)⟩ := by
  unfold getWinding claimModTwoMap claimContour
  set w0 := accumulatedLeft geom px py paths horizontal with hw0
  set w1 := accumulatedRight geom px py paths horizontal with hw1
  by_cases hz0 : w0 = 0 <;> by_cases hz1 : w1 = 0
  · simp [hz0, hz1]
  · simp [hz0, hz1, modTwoMapped_ne_zero w1]
  · simp [hz0, hz1, modTwoMapped_ne_zero w0]
  · simp [hz0, hz1, modTwoMapped_ne_zero w0, modTwoMapped_ne_zero w1]

/-! ### tracePaths (src/path/PathItem.Boolean.js, lines 1633-1815)

The tracer walks unvisited valid segments, switching at intersections
according to `isValid` / `findBestIntersection`, and emits closed paths.
Segments, intersections and paths are modelled as index-linked records;
`Path#getArea` and `Numerical.isZero` are collaborator parameters. -/

/-- A segment record as `tracePaths` reads it: point and handles, owning
path and position inside it, the propagated `_winding` / `_contour`, and
the optional `_intersection` (an index into the intersection table). -/
structure TSeg where
  pt : ℚ × ℚ
  hIn : ℚ × ℚ
  hOut : ℚ × ℚ
  pathId : Nat
  idxInPath : Nat
  winding : Int
  contour : Bool
  inter : Option Nat
deriving DecidableEq

/-- An intersection record (`CurveLocation`): its `_segment`, the `_next`
link of the intersection chain, and the `_overlap` flag. -/
structure TInter where
  seg : Nat
  next : Option Nat
  overlap : Bool
deriving DecidableEq

/-- A path record: its segments (as global indices, in order), the
`_closed` flag, and the `_overlapsOnly` / `_validOverlapsOnly` flags that
`computeBoolean` sets before tracing. -/
structure TPath where
  segIdxs : List Nat
  closed : Bool
  overlapsOnly : Bool
  validOverlapsOnly : Bool
deriving DecidableEq

/-- A segment of a result path built by `path.add(new Segment(pt,
handleIn, handleOut))`; `none` handles encode the absent/zero handles of
JS `undefined` arguments. -/
structure OutSeg where
  pt : ℚ × ℚ
  hIn : Option (ℚ × ℚ)
  hOut : Option (ℚ × ℚ)
deriving DecidableEq

/-- A result path: its segments and closed flag. -/
structure OutPath where
  segs : List OutSeg
  closed : Bool
deriving DecidableEq

/-- The inputs of one `tracePaths` run: the segment/intersection/path
tables and the two numeric collaborators `Path#getArea(closedArg)` and
`Numerical.isZero`. -/
structure TraceCtx where
  segs : List TSeg
  inters : List TInter
  paths : List TPath
  getArea : Bool → List OutSeg → ℚ
  isZero : ℚ → Bool

/-- Table lookups. -/
def TraceCtx.segAt (ctx : TraceCtx) (i : Nat) : Option TSeg := ctx.segs.get? i

/-- Intersection table lookup. -/
def TraceCtx.interAt (ctx : TraceCtx) (i : Nat) : Option TInter := ctx.inters.get? i

/-- Path table lookup. -/
def TraceCtx.pathAt (ctx : TraceCtx) (p : Nat) : Option TPath := ctx.paths.get? p

/-- Embedding of `Segment#getNext`: the next segment in the path, wrapping
to the first segment only on closed paths. -/
def segNext (ctx : TraceCtx) (i : Nat) : Option Nat :=
  match ctx.segAt i with
  | none => none
  | some s =>
    match ctx.pathAt s.pathId with
    | none => none
    | some p =>
      match p.segIdxs.get? (s.idxInPath + 1) with
      | some j => some j
      | none => if p.closed then p.segIdxs.get? 0 else none

/-- Embedding of `Path#getFirstSegment` for the path owning segment `i`. -/
def segFirst (ctx : TraceCtx) (i : Nat) : Option Nat :=
  ((ctx.segAt i).bind fun s => ctx.pathAt s.pathId).bind fun p => p.segIdxs.get? 0

/-- The `_validOverlapsOnly` flag of the path owning segment `i`. -/
def validOverlapsOnlyOf (ctx : TraceCtx) (i : Nat) : Bool :=
  match (ctx.segAt i).bind fun s => ctx.pathAt s.pathId with
  | some p => p.validOverlapsOnly
  | none => false

/-- The `_overlapsOnly` flag of the path owning segment `i`. -/
def overlapsOnlyOf (ctx : TraceCtx) (i : Nat) : Bool :=
  match (ctx.segAt i).bind fun s => ctx.pathAt s.pathId with
  | some p => p.overlapsOnly
  | none => false

/-- Embedding of the tracer's `isValid(seg, excludeContour)`:

    return !!(seg && !seg._visited && (!operator
            || operator[seg._winding]
            || !excludeContour && operator.unite && seg._contour)); -/
def isValidSeg (ctx : TraceCtx) (op : Option OperatorFlags) (visited : List Nat)
    (s : Option Nat) (excludeContour : Bool) : Bool :=
  match s with
  | none => false
  | some i =>
    match ctx.segAt i with
    | none => false
    | some sg =>
      !(visited.contains i) &&
        (match op with
         | none => true
         | some o => o.lookup sg.winding || (!excludeContour && o.unite && sg.contour))

/-- Embedding of the tracer's `isStart(seg)`; comparing `Option`s keeps
the JS semantics where a `null` argument equals a still-`null` `start`. -/
def isStartSeg (start otherStart : Option Nat) (s : Option Nat) : Bool :=
  decide (s = start) || decide (s = otherStart)

/-- Embedding of the `while (inter)` search of `findBestIntersection`,
walking the `_next` chain.  A missing table entry stops the walk (the
source never produces one), and `!nextSeg._visited` is read as `true` when
`nextSeg` is `null`. -/
def findBestLoop (ctx : TraceCtx) (op : Option OperatorFlags) (visited : List Nat)
    (start otherStart : Option Nat) (exclude : Nat) : Nat → Nat → Option Nat
  | 0, _ => none
  | fuel + 1, interIdx =>
    match ctx.interAt interIdx with
    | none => none
    | some it =>
      let segIdx := it.seg
      let nextSeg := segNext ctx segIdx
      let nextInter := (nextSeg.bind fun j => ctx.segAt j).bind fun s => s.inter
      let nextVisited :=
        match nextSeg with
        | some j => visited.contains j
        | none => false
      let opPart :=
        match op with
        | none => true
        | some _ =>
          isValidSeg ctx op visited (some segIdx) false &&
            (isValidSeg ctx op visited nextSeg false ||
              (match nextInter with
               | some ni => isValidSeg ctx op visited ((ctx.interAt ni).map fun x => x.seg) false
               | none => false))
      if decide (segIdx ≠ exclude) &&
          (isStartSeg start otherStart (some segIdx) || isStartSeg start otherStart nextSeg ||
            (!(visited.contains segIdx) && !nextVisited && opPart)) then
        some interIdx
      else
        match it.next with
        | some nx => findBestLoop ctx op visited start otherStart exclude fuel nx
        | none => none

/-- Embedding of `findBestIntersection(inter, exclude)` with its
short-circuit `if (!inter._next) return inter`. -/
def findBestIntersection (ctx : TraceCtx) (op : Option OperatorFlags) (visited : List Nat)
    (start otherStart : Option Nat) (exclude : Nat) (interIdx : Nat) : Option Nat :=
  match ctx.interAt interIdx with
  | none => none
  | some it =>
    if it.next = none then some interIdx
    else findBestLoop ctx op visited start otherStart exclude (ctx.inters.length + 1) interIdx

/-- The state of the tracer's inner `while (true)` loop. -/
structure TraceState where
  visited : List Nat
  seg : Nat
  inter : Option Nat
  pathSegs : Option (List OutSeg)
  start : Option Nat
  otherStart : Option Nat
  handleIn : Option (ℚ × ℚ)

/-- The intersection selected at the top of a loop iteration:
`inter = inter && findBestIntersection(inter, seg) || inter`. -/
def switchResolvedInter (ctx : TraceCtx) (op : Option OperatorFlags) (st : TraceState) :
    Option Nat :=
  match st.inter with
  | some i =>
    match findBestIntersection ctx op st.visited st.start st.otherStart st.seg i with
    | some j => some j
    | none => some i
  | none => none

/-- The partner segment of the selected intersection:
`var other = inter && inter._segment`. -/
def switchResolvedOther (ctx : TraceCtx) (op : Option OperatorFlags) (st : TraceState) :
    Option Nat :=
  (switchResolvedInter ctx op st).bind fun i => (ctx.interAt i).map fun it => it.seg

/-- Embedding of the switch phase of one loop iteration (lines 1722-1749):
the `isStart` checks, the `isValid(other, isValid(seg, true))` switch, and
the extra `seg._visited = true` for intersect/subtract.  Returns
`(finished, current segment, visited set, selected intersection)`. -/
def switchPhase (ctx : TraceCtx) (op : Option OperatorFlags) (st : TraceState) :
    Bool × Nat × List Nat × Option Nat :=
  let inter := switchResolvedInter ctx op st
  let other := switchResolvedOther ctx op st
  if isStartSeg st.start st.otherStart (some st.seg) then
    (true, st.seg, st.visited, inter)
  else
    match other with
    | some o =>
      if isStartSeg st.start st.otherStart (some o) then
        (true, o, st.visited, inter)
      else if isValidSeg ctx op st.visited (some o)
          (isValidSeg ctx op st.visited (some st.seg) true) then
        let visited' :=
          match op with
          | some oo => if oo.intersect || oo.subtract then st.seg :: st.visited else st.visited
          | none => st.visited
        (false, o, visited', inter)
      else
        (false, st.seg, st.visited, inter)
    | none => (false, st.seg, st.visited, inter)

/-- The outcome of one loop iteration: the loop breaks (with the finished
flag) or continues with a new state. -/
inductive StepRes
  | halt (finished : Bool) (st : TraceState)
  | step (st : TraceState)

/-- Embedding of the body of the tracer's `while (true)` loop: switch
phase, the two bail-outs, lazy path creation, and the segment append with
the advance to the next segment (wrapping over open-path ends). -/
def traceStep (ctx : TraceCtx) (op : Option OperatorFlags) (st : TraceState) : StepRes :=
  let r := switchPhase ctx op st
  let finished := r.1
  let seg1 := r.2.1
  let visited1 := r.2.2.1
  let inter1 := r.2.2.2
  if finished || visited1.contains seg1 then
    StepRes.halt finished
      { st with visited := seg1 :: visited1, seg := seg1, inter := inter1 }
  else if validOverlapsOnlyOf ctx seg1 &&
      !(isValidSeg ctx op visited1 (some seg1) false) then
    StepRes.halt false { st with visited := visited1, seg := seg1, inter := inter1 }
  else
    match ctx.segAt seg1 with
    | none =>
      StepRes.halt false { st with visited := visited1, seg := seg1, inter := inter1 }
    | some sg =>
      let other := inter1.bind fun i => (ctx.interAt i).map fun it => it.seg
      let pathInit :
          List OutSeg × Option Nat × Option Nat :=
        match st.pathSegs with
        | none => ([], some seg1, other)
        | some l => (l, st.start, st.otherStart)
      let nxt := segNext ctx seg1
      let newSeg : OutSeg :=
        ⟨sg.pt, st.handleIn, if nxt.isSome then some sg.hOut else none⟩
      let seg2 :=
        match nxt with
        | some j => j
        | none => (segFirst ctx seg1).getD seg1
      StepRes.step
        { visited := seg1 :: visited1,
          seg := seg2,
          inter := (ctx.segAt seg2).bind fun s => s.inter,
          pathSegs := some (pathInit.1 ++ [newSeg]),
          start := pathInit.2.1,
          otherStart := pathInit.2.2,
          handleIn := nxt.bind fun j => (ctx.segAt j).map fun s => s.hIn }

/-- The tracer's inner loop, bounded by fuel (the source's termination
rests on the visited marks; running out of fuel behaves like an
unfinished break, which the emission phase discards). -/
def traceLoop (ctx : TraceCtx) (op : Option OperatorFlags) :
    Nat → TraceState → Bool × TraceState
  | 0, st => (false, st)
  | fuel + 1, st =>
    match traceStep ctx op st with
    | StepRes.halt finished st' => (finished, st')
    | StepRes.step st' => traceLoop ctx op fuel st'

/-- Embedding of the emission phase after the loop (lines 1783-1815): a
finished path gets the carried `handleIn` on its first segment and is
closed, then pushed when it has more than 8 segments or a not-numerically-
zero area; an unfinished path is discarded, with an error logged when its
area magnitude is at least `GEOMETRIC_EPSILON`.  Returns the emitted path
(if any) and the logged area (if any). -/
def finishTraced (ctx : TraceCtx) (finished : Bool) (st : TraceState) :
    Option OutPath × Option ℚ :=
  if finished then
    match st.pathSegs with
    | some (h :: t) =>
      let closedPath : OutPath := ⟨{ h with hIn := st.handleIn } :: t, true⟩
      if decide (8 < closedPath.segs.length) ||
          !(ctx.isZero (ctx.getArea false closedPath.segs)) then
        (some closedPath, none)
      else (none, none)
    | _ => (none, none)
  else
    match st.pathSegs with
    | some l =>
      let area := ctx.getArea true l
      if geometricEpsilon ≤ |area| then (none, some area) else (none, none)
    | none => (none, none)

/-- A segment as compared by `Base.equals(segments1, segments2)` and as
cloned by `path1.clone(false)`: its point and both handles. -/
def outSegOfTSeg (s : TSeg) : OutSeg := ⟨s.pt, some s.hIn, some s.hOut⟩

/-- The segment list of an input path, as cloned/compared data. -/
def outSegsOfPath (ctx : TraceCtx) (p : TPath) : List OutSeg :=
  p.segIdxs.filterMap fun j => (ctx.segAt j).map outSegOfTSeg

/-- Embedding of the fully-overlapping-paths block at the top of the outer
loop (lines 1692-1709): when the segment's path consists of overlaps only
and equals the partner path segment-wise, the path is cloned into the
result for unite/intersect when its area is truthy (nonzero), and all
segments of both paths are marked visited.  Returns the pushed clones and
the extra visited marks. -/
def overlapClonePaths (ctx : TraceCtx) (op : Option OperatorFlags) (visited : List Nat)
    (i : Nat) : List OutPath × List Nat :=
  match ctx.segAt i with
  | none => ([], [])
  | some sg =>
    if visited.contains i || !(overlapsOnlyOf ctx i) then ([], [])
    else
      match sg.inter.bind fun k => ctx.interAt k with
      | none => ([], [])
      | some it =>
        match ctx.segAt it.seg with
        | none => ([], [])
        | some sg2 =>
          match ctx.pathAt sg.pathId, ctx.pathAt sg2.pathId with
          | some path1, some path2 =>
            if outSegsOfPath ctx path1 = outSegsOfPath ctx path2 then
              ((if (match op with
                    | some o => o.unite || o.intersect
                    | none => false) &&
                   !(decide (ctx.getArea false (outSegsOfPath ctx path1) = 0)) then
                  [⟨outSegsOfPath ctx path1, path1.closed⟩]
                else []),
                path1.segIdxs ++ path2.segIdxs)
            else ([], [])
          | _, _ => ([], [])

/-- One iteration of the tracer's outer `for` loop, returning the new
visited set together with the newly pushed paths and logged errors. -/
def outerStepNew (ctx : TraceCtx) (op : Option OperatorFlags) (visited : List Nat)
    (i : Nat) : List Nat × List OutPath × List ℚ :=
  match ctx.segAt i with
  | none => (visited, [], [])
  | some sg =>
    let clone := overlapClonePaths ctx op visited i
    let visited1 := clone.2 ++ visited
    if !(isValidSeg ctx op visited1 (some i) true) ||
        (!(validOverlapsOnlyOf ctx i) &&
          (match sg.inter.bind fun k => ctx.interAt k with
           | some it => it.overlap
           | none => false)) then
      (visited1, clone.1, [])
    else
      let st0 : TraceState := ⟨visited1, i, sg.inter, none, none, none, none⟩
      let res := traceLoop ctx op (4 * ctx.segs.length + 4) st0
      let fin := finishTraced ctx res.1 res.2
      (res.2.visited, clone.1 ++ fin.1.toList, fin.2.toList)

/-- The running result of `tracePaths`. -/
structure TraceRun where
  visited : List Nat
  paths : List OutPath
  errors : List ℚ

/-- One outer iteration threaded through the accumulated run. -/
def outerStep (ctx : TraceCtx) (op : Option OperatorFlags) (tr : TraceRun) (i : Nat) :
    TraceRun :=
  let r := outerStepNew ctx op tr.visited i
  ⟨r.1, tr.paths ++ r.2.1, tr.errors ++ r.2.2⟩

/-- Embedding of `tracePaths(segments, operator)`: the outer loop over all
segments, starting with clear visited flags and empty results. -/
def tracePaths (ctx : TraceCtx) (op : Option OperatorFlags) : TraceRun :=
  (List.range ctx.segs.length).foldl (outerStep ctx op) ⟨[], [], []⟩

lemma finishTraced_path_spec (ctx : TraceCtx) (fin : Bool) (st : TraceState) (p : OutPath)
    (h : (finishTraced ctx fin st).1 = some p) :
    p.closed = true ∧
      (8 < p.segs.length ∨ ¬(ctx.isZero (ctx.getArea false p.segs) = true)) := by
  unfold finishTraced at h
  by_cases hf : fin
  · rw [if_pos hf] at h
    rcases hps : st.pathSegs with _ | l
    · rw [hps] at h; exact absurd h (by simp)
    · rcases l with _ | ⟨h0, t⟩
      · rw [hps] at h; exact absurd h (by simp)
      · rw [hps] at h
        simp only at h
        by_cases hpush : (decide (8 < ({ h0 with hIn := st.handleIn } :: t : List OutSeg).length) ||
            !(ctx.isZero (ctx.getArea false ({ h0 with hIn := st.handleIn } :: t)))) = true
        · rw [if_pos hpush] at h
          have hp : p = ⟨{ h0 with hIn := st.handleIn } :: t, true⟩ := by
            exact (Option.some.injEq _ _).mp h.symm
          subst hp
          refine ⟨rfl, ?_⟩
          have hor := hpush
          simp only [Bool.or_eq_true, decide_eq_true_eq, Bool.not_eq_true'] at hor
          rcases hor with hlen | hiz
          · exact Or.inl hlen
          · exact Or.inr (by simp [hiz])
        · rw [if_neg hpush] at h
          exact absurd h (by simp)
  · rw [if_neg hf] at h
    rcases hps : st.pathSegs with _ | l
    · rw [hps] at h; exact absurd h (by simp)
    · rw [hps] at h
      simp only at h
      by_cases herr : geometricEpsilon ≤ |ctx.getArea true l|
      · rw [if_pos herr] at h; exact absurd h (by simp)
      · rw [if_neg herr] at h; exact absurd h (by simp)

lemma finishTraced_err_spec (ctx : TraceCtx) (fin : Bool) (st : TraceState) (a : ℚ)
    (h : (finishTraced ctx fin st).2 = some a) : geometricEpsilon ≤ |a| := by
  unfold finishTraced at h
  by_cases hf : fin
  · rw [if_pos hf] at h
    rcases hps : st.pathSegs with _ | l
    · rw [hps] at h; exact absurd h (by simp)
    · rcases l with _ | ⟨h0, t⟩
      · rw [hps] at h; exact absurd h (by simp)
      · rw [hps] at h
        simp only at h
        by_cases hpush : (decide (8 < ({ h0 with hIn := st.handleIn } :: t : List OutSeg).length) ||
            !(ctx.isZero (ctx.getArea false ({ h0 with hIn := st.handleIn } :: t)))) = true
        · rw [if_pos hpush] at h; exact absurd h (by simp)
        · rw [if_neg hpush] at h; exact absurd h (by simp)
  · rw [if_neg hf] at h
    rcases hps : st.pathSegs with _ | l
    · rw [hps] at h; exact absurd h (by simp)
    · rw [hps] at h
      simp only at h
      by_cases herr : geometricEpsilon ≤ |ctx.getArea true l|
      · rw [if_pos herr] at h
        have : a = ctx.getArea true l := by
          exact (Option.some.injEq _ _).mp h.symm
        rw [this]
        exact herr
      · rw [if_neg herr] at h; exact absurd h (by simp)

lemma overlapClone_path_spec (ctx : TraceCtx) (op : Option OperatorFlags)
    (visited : List Nat) (i : Nat)
    (hclosed : ∀ q ∈ ctx.paths, q.closed = true) :
    ∀ p ∈ (overlapClonePaths ctx op visited i).1,
      p.closed = true ∧ ¬(ctx.getArea false p.segs = 0) := by
  intro p hp
  unfold overlapClonePaths at hp
  rcases hseg : ctx.segAt i with _ | sg
  · rw [hseg] at hp; exact absurd hp (by simp)
  · rw [hseg] at hp
    simp only at hp
    by_cases hv : (visited.contains i || !(overlapsOnlyOf ctx i)) = true
    · rw [if_pos hv] at hp; exact absurd hp (by simp)
    · rw [if_neg hv] at hp
      rcases hit : sg.inter.bind fun k => ctx.interAt k with _ | it
      · rw [hit] at hp; exact absurd hp (by simp)
      · rw [hit] at hp
        simp only at hp
        rcases hsg2 : ctx.segAt it.seg with _ | sg2
        · rw [hsg2] at hp; exact absurd hp (by simp)
        · rw [hsg2] at hp
          simp only at hp
          rcases hp1 : ctx.pathAt sg.pathId with _ | path1
          · rw [hp1] at hp; exact absurd hp (by simp)
          · rcases hp2 : ctx.pathAt sg2.pathId with _ | path2
            · rw [hp1, hp2] at hp; exact absurd hp (by simp)
            · rw [hp1, hp2] at hp
              simp only at hp
              by_cases heq : outSegsOfPath ctx path1 = outSegsOfPath ctx path2
              · rw [if_pos heq] at hp
                split at hp
                next hpush =>
                  have hpe : p = ⟨outSegsOfPath ctx path1, path1.closed⟩ := by
                    simpa using hp
                  subst hpe
                  constructor
                  · exact hclosed path1 (List.get?_mem hp1)
                  · simp only [Bool.and_eq_true, Bool.not_eq_true',
                      decide_eq_false_iff_not] at hpush
                    exact hpush.2
                next hpush =>
                  exact absurd hp (by simp)
              · rw [if_neg heq] at hp
                exact absurd hp (by simp)

lemma outerStepNew_path_spec (ctx : TraceCtx) (op : Option OperatorFlags)
    (hclosed : ∀ q ∈ ctx.paths, q.closed = true) (hz : ctx.isZero 0 = true)
    (visited : List Nat) (i : Nat) :
    ∀ p ∈ (outerStepNew ctx op visited i).2.1,
      p.closed = true ∧ (8 < p.segs.length ∨ ¬(ctx.getArea false p.segs = 0)) := by
  intro p hp
  unfold outerStepNew at hp
  rcases hseg : ctx.segAt i with _ | sg
  · rw [hseg] at hp; exact absurd hp (by simp)
  · rw [hseg] at hp
    simp only at hp
    by_cases hguard : (!(isValidSeg ctx op ((overlapClonePaths ctx op visited i).2 ++ visited)
          (some i) true) ||
        (!(validOverlapsOnlyOf ctx i) &&
          (match sg.inter.bind fun k => ctx.interAt k with
           | some it => it.overlap
           | none => false))) = true
    · rw [if_pos hguard] at hp
      have h := overlapClone_path_spec ctx op visited i hclosed p hp
      exact ⟨h.1, Or.inr h.2⟩
    · rw [if_neg hguard] at hp
      rcases List.mem_append.mp hp with hmem | hmem
      · have h := overlapClone_path_spec ctx op visited i hclosed p hmem
        exact ⟨h.1, Or.inr h.2⟩
      · have hsome := Option.mem_def.mp (Option.mem_toList.mp hmem)
        have h := finishTraced_path_spec ctx _ _ p hsome
        refine ⟨h.1, ?_⟩
        rcases h.2 with hlen | hiz
        · exact Or.inl hlen
        · refine Or.inr fun ha0 => ?_
          rw [ha0] at hiz
          exact hiz hz

lemma outerStepNew_err_spec (ctx : TraceCtx) (op : Option OperatorFlags)
    (visited : List Nat) (i : Nat) :
    ∀ a ∈ (outerStepNew ctx op visited i).2.2, geometricEpsilon ≤ |a| := by
  intro a ha
  unfold outerStepNew at ha
  rcases hseg : ctx.segAt i with _ | sg
  · rw [hseg] at ha; exact absurd ha (by simp)
  · rw [hseg] at ha
    simp only at ha
    by_cases hguard : (!(isValidSeg ctx op ((overlapClonePaths ctx op visited i).2 ++ visited)
          (some i) true) ||
        (!(validOverlapsOnlyOf ctx i) &&
          (match sg.inter.bind fun k => ctx.interAt k with
           | some it => it.overlap
           | none => false))) = true
    · rw [if_pos hguard] at ha
      exact absurd ha (by simp)
    · rw [if_neg hguard] at ha
      have hsome := Option.mem_def.mp (Option.mem_toList.mp ha)
      exact finishTraced_err_spec ctx _ _ a hsome

lemma foldl_outer_spec (ctx : TraceCtx) (op : Option OperatorFlags)
    (P : OutPath → Prop) (E : ℚ → Prop)
    (hP : ∀ visited i, ∀ p ∈ (outerStepNew ctx op visited i).2.1, P p)
    (hE : ∀ visited i, ∀ a ∈ (outerStepNew ctx op visited i).2.2, E a) :
    ∀ (l : List Nat) (tr : TraceRun),
      (∀ p ∈ tr.paths, P p) → (∀ a ∈ tr.errors, E a) →
      (∀ p ∈ (l.foldl (outerStep ctx op) tr).paths, P p) ∧
      (∀ a ∈ (l.foldl (outerStep ctx op) tr).errors, E a) := by
  intro l
  induction l with
  | nil => intro tr h1 h2; exact ⟨h1, h2⟩
  | cons i rest ih =>
    intro tr h1 h2
    apply ih
    · intro p hp
      simp only [outerStep] at hp
      rcases List.mem_append.mp hp with h | h
      · exact h1 p h
      · exact hP tr.visited i p h
    · intro a ha
      simp only [outerStep] at ha
      rcases List.mem_append.mp ha with h | h
      · exact h2 a h
      · exact hE tr.visited i a h

/-- C3 (amended): every path emitted by the tracer is closed (given closed
input paths), and is emitted only if it has more than 8 segments or a
nonzero area (the source checks `!Numerical.isZero(path.getArea())` only
for paths of at most 8 segments, and pushes fully-overlapping clones only
when their area is truthy); unfinished traced paths are never emitted, and
every logged open-path error concerns an area of magnitude at least
`GEOMETRIC_EPSILON`.  The claimed lower bound `GEOMETRIC_EPSILON` on
emitted areas does not hold. -/
theorem C3_tracer_emission (ctx : TraceCtx) (op : Option OperatorFlags)
    (hclosed : (ctx.paths.all fun q => q.closed) = true)
    (hz : ctx.isZero 0 = true) :
    ((tracePaths ctx op).paths.all fun p =>
        p.closed && (decide (8 < p.segs.length) ||
          !(decide (ctx.getArea false p.segs = 0)))) = true ∧
    ((tracePaths ctx op).errors.all fun a => decide (geometricEpsilon ≤ |a|)) = true := by
  have hclosed' : ∀ q ∈ ctx.paths, q.closed = true := fun q hq =>
    List.all_eq_true.mp hclosed q hq
  have hmain := foldl_outer_spec ctx op
    (fun p => p.closed = true ∧ (8 < p.segs.length ∨ ¬(ctx.getArea false p.segs = 0)))
    (fun a => geometricEpsilon ≤ |a|)
    (fun visited i => outerStepNew_path_spec ctx op hclosed' hz visited i)
    (fun visited i => outerStepNew_err_spec ctx op visited i)
    (List.range ctx.segs.length) ⟨[], [], []⟩ (by simp) (by simp)
  constructor
  · apply List.all_eq_true.mpr
    intro p hp
    have h := hmain.1 p hp
    simp only [h.1, Bool.true_and, Bool.or_eq_true, decide_eq_true_eq, Bool.not_eq_true',
      decide_eq_false_iff_not]
    exact h.2
  · apply List.all_eq_true.mpr
    intro a ha
    have h := hmain.2 a ha
    simpa using h

/-- The empty tracing context, for the C3 witness. -/
def exEmptyCtx : TraceCtx := ⟨[], [], [], fun _ _ => 0, fun q => decide (q = 0)⟩

/-- Witness for C3 (amended) at the empty context. -/
theorem C3_tracer_emission_witness :
    (exEmptyCtx.paths.all fun q => q.closed) = true ∧ exEmptyCtx.isZero 0 = true ∧
    (((tracePaths exEmptyCtx none).paths.all fun p =>
        p.closed && (decide (8 < p.segs.length) ||
          !(decide (exEmptyCtx.getArea false p.segs = 0)))) = true ∧
      ((tracePaths exEmptyCtx none).errors.all fun a =>
        decide (geometricEpsilon ≤ |a|)) = true) :=
  ⟨rfl, by simp [exEmptyCtx], C3_tracer_emission exEmptyCtx none rfl (by simp [exEmptyCtx])⟩

/-- Straight-segment polygon (shoelace) area.  Modelled from the spec:
`Path#getArea` is an external collaborator (§6); on paths whose segments
carry no effective handles it is the polygon area of the anchor points. -/
def polygonArea (segs : List OutSeg) : ℚ :=
  ((segs.map fun s => s.pt).zip
      (((segs.map fun s => s.pt).drop 1) ++ ((segs.map fun s => s.pt).take 1))).foldl
    (fun acc pq => acc + (pq.1.1 * pq.2.2 - pq.2.1 * pq.1.2)) 0 / 2

/-- Side length of the tiny square used against claim C3. -/
def exC3A : ℚ := 1 / 100000

/-- A straight, intersection-free segment of the tiny square path. -/
def exC3Seg (k : Nat) (x y : ℚ) : TSeg := ⟨(x, y), (0, 0), (0, 0), 0, k, 1, false, none⟩

/-- The C3 counterexample context: one closed 9-segment path tracing a
square of side 1e-5 (with redundant collinear anchors), winding 1
everywhere, no intersections. -/
def exC3Ctx : TraceCtx where
  segs := [exC3Seg 0 0 0, exC3Seg 1 (exC3A / 2) 0, exC3Seg 2 exC3A 0,
    exC3Seg 3 exC3A (exC3A / 2), exC3Seg 4 exC3A exC3A, exC3Seg 5 (exC3A / 2) exC3A,
    exC3Seg 6 0 exC3A, exC3Seg 7 0 (exC3A / 2), exC3Seg 8 0 (exC3A / 4)]
  inters := []
  paths := [⟨[0, 1, 2, 3, 4, 5, 6, 7, 8], true, false, false⟩]
  getArea := fun _ segs => polygonArea segs
  isZero := fun q => decide (q = 0)

/-- An emitted segment of the tiny square. -/
def exC3OutSeg (x y : ℚ) : OutSeg := ⟨(x, y), some (0, 0), some (0, 0)⟩

/-- The path the tracer emits on `exC3Ctx`. -/
def exC3Expected : OutPath :=
  ⟨[exC3OutSeg 0 0, exC3OutSeg (exC3A / 2) 0, exC3OutSeg exC3A 0,
    exC3OutSeg exC3A (exC3A / 2), exC3OutSeg exC3A exC3A, exC3OutSeg (exC3A / 2) exC3A,
    exC3OutSeg 0 exC3A, exC3OutSeg 0 (exC3A / 2), exC3OutSeg 0 (exC3A / 4)], true⟩

/-- C3, counterexample.  Tracing the unite operator over the tiny
9-segment square emits a closed path whose area (1e-10) is far below
`GEOMETRIC_EPSILON` (1e-7): having more than 8 segments, it is pushed
without any area check. -/
theorem C3_counterexample :
    (tracePaths exC3Ctx (some (operatorFor BoolOperation.unite))).paths = [exC3Expected] ∧
    exC3Expected.closed = true ∧
    ¬(geometricEpsilon ≤ |exC3Ctx.getArea false exC3Expected.segs|) := by
  refine ⟨rfl, rfl, ?_⟩
  norm_num [exC3Ctx, exC3Expected, exC3OutSeg, polygonArea, exC3A, geometricEpsilon]
  rw [abs_of_pos (by norm_num : (0 : ℚ) < 1 / 10000000000)]
  norm_num

/-- The C6 counterexample context: two closed two-segment paths crossing
at a non-overlap intersection linking segment 0 (winding 1) with segment 2
(winding 2). -/
def exC6Ctx : TraceCtx where
  segs := [
    ⟨(0, 0), (0, 0), (0, 0), 0, 0, 1, false, some 0⟩,
    ⟨(1, 0), (0, 0), (0, 0), 0, 1, 1, false, none⟩,
    ⟨(0, 1), (0, 0), (0, 0), 1, 0, 2, false, some 1⟩,
    ⟨(1, 1), (0, 0), (0, 0), 1, 1, 2, false, none⟩]
  inters := [⟨2, none, false⟩, ⟨0, none, false⟩]
  paths := [⟨[0, 1], true, false, false⟩, ⟨[2, 3], true, false, false⟩]
  getArea := fun _ _ => 0
  isZero := fun q => decide (q = 0)

/-- A mid-trace state at segment 0 of `exC6Ctx`: the trace started at
segment 1, the current segment 0 carries the crossing. -/
def exC6State : TraceState :=
  ⟨[], 0, some 0, some [⟨(1, 0), none, none⟩], some 1, none, none⟩

/-- C6, counterexample.  At the non-overlap crossing of `exC6State` the
partner segment has winding 2; the exclude tracer does not switch to it
(the current segment stays 0), refuting "switches to the partner segment
at every crossing". -/
theorem C6_counterexample :
    exC6Ctx.interAt 0 = some ⟨2, none, false⟩ ∧
    switchResolvedOther exC6Ctx (some (operatorFor BoolOperation.exclude)) exC6State =
      some 2 ∧
    (switchPhase exC6Ctx (some (operatorFor BoolOperation.exclude)) exC6State).2.1 = 0 ∧
    ¬((switchPhase exC6Ctx (some (operatorFor BoolOperation.exclude)) exC6State).2.1 = 2) :=
  ⟨rfl, rfl, rfl, by decide⟩

/-- C6 (amended): for the exclude operator the tracer admits exactly the
segments of winding 1, and at an intersection it switches to the partner
segment iff the partner is one of the trace's start segments or is
unvisited with winding 1; it stays on the current segment otherwise. -/
theorem C6_exclude_switch (ctx : TraceCtx) (st : TraceState) (o : Nat) (sg : TSeg)
    (hnotstart : isStartSeg st.start st.otherStart (some st.seg) = false)
    (hother : switchResolvedOther ctx (some (operatorFor BoolOperation.exclude)) st = some o)
    (hsg : ctx.segAt o = some sg)
    (hne : ¬(o = st.seg)) :
    ((switchPhase ctx (some (operatorFor BoolOperation.exclude)) st).2.1 = o ↔
      (isStartSeg st.start st.otherStart (some o) = true ∨
        (st.visited.contains o = false ∧ sg.winding = 1))) ∧
    (operatorFor BoolOperation.exclude).lookup = fun w => decide (w = 1) := by
  refine ⟨?_, rfl⟩
  have hvalid : isValidSeg ctx (some (operatorFor BoolOperation.exclude)) st.visited (some o)
      (isValidSeg ctx (some (operatorFor BoolOperation.exclude)) st.visited
        (some st.seg) true) =
      (!(st.visited.contains o) && decide (sg.winding = 1)) := by
    conv =>
      left
      rw [isValidSeg]
    rw [hsg]
    simp [operatorFor]
  unfold switchPhase
  simp only [hother, hnotstart, Bool.false_eq_true, if_false]
  by_cases hso : isStartSeg st.start st.otherStart (some o) = true
  · simp [hso]
  · rw [if_neg (fun hh => hso hh)]
    rw [hvalid]
    by_cases hv : (!(st.visited.contains o) && decide (sg.winding = 1)) = true
    · rw [if_pos hv]
      simp only [Bool.and_eq_true, Bool.not_eq_true', decide_eq_true_eq] at hv
      exact ⟨fun _ => Or.inr hv, fun _ => rfl⟩
    · rw [if_neg hv]
      simp only [Bool.and_eq_true, Bool.not_eq_true', decide_eq_true_eq] at hv
      constructor
      · intro h
        have h2 : st.seg = o := h
        exact absurd h2.symm hne
      · intro h
        rcases h with h | h
        · exact absurd h hso
        · exact absurd h hv

/-- The C6 witness context: like `exC6Ctx` but the partner segment 2 has
winding 1, so the exclude tracer does switch. -/
def exC6CtxB : TraceCtx where
  segs := [
    ⟨(0, 0), (0, 0), (0, 0), 0, 0, 1, false, some 0⟩,
    ⟨(1, 0), (0, 0), (0, 0), 0, 1, 1, false, none⟩,
    ⟨(0, 1), (0, 0), (0, 0), 1, 0, 1, false, some 1⟩,
    ⟨(1, 1), (0, 0), (0, 0), 1, 1, 1, false, none⟩]
  inters := [⟨2, none, false⟩, ⟨0, none, false⟩]
  paths := [⟨[0, 1], true, false, false⟩, ⟨[2, 3], true, false, false⟩]
  getArea := fun _ _ => 0
  isZero := fun q => decide (q = 0)

/-- Witness for C6 (amended) at `exC6CtxB` / `exC6State`. -/
theorem C6_exclude_switch_witness :
    isStartSeg exC6State.start exC6State.otherStart (some exC6State.seg) = false ∧
    switchResolvedOther exC6CtxB (some (operatorFor BoolOperation.exclude)) exC6State =
      some 2 ∧
    exC6CtxB.segAt 2 = some ⟨(0, 1), (0, 0), (0, 0), 1, 0, 1, false, some 1⟩ ∧
    ¬((2 : Nat) = exC6State.seg) ∧
    (((switchPhase exC6CtxB (some (operatorFor BoolOperation.exclude)) exC6State).2.1 = 2 ↔
        (isStartSeg exC6State.start exC6State.otherStart (some 2) = true ∨
          (exC6State.visited.contains 2 = false ∧
            (⟨(0, 1), (0, 0), (0, 0), 1, 0, 1, false, some 1⟩ : TSeg).winding = 1))) ∧
      (operatorFor BoolOperation.exclude).lookup = fun w => decide (w = 1)) :=
  ⟨rfl, rfl, rfl, by decide,
    C6_exclude_switch exC6CtxB exC6State 2 _ rfl rfl rfl (by decide)⟩
